import Mathlib

/-!
# climate-insights-fn: the resource patcher of `main.go`

`Run` reads two strings from the function configuration and makes one pass over
the resource list, patching fields and appending result entries.

The kpt functions SDK (`fn.KubeObject`, `fn.Result`, ...) is an external library.
`Run` is therefore embedded over an interface `Sdk` holding exactly the SDK
operations that `main.go` calls; a concrete instance `kube` (a field tree with
path addressing) is modelled from the specification.
-/

set_option autoImplicit false

namespace ClimateInsights

/-! ## Data model -/

/-- Modelled from the spec: the field tree of a resource document is not part of the
sources.  It is made of scalars, sequences and mappings; a mapping is an ordered list of
key/value entries, looked up by first occurrence. -/
inductive Value where
  | str (s : String)
  | seq (xs : List Value)
  | map (kvs : List (String × Value))

/-- Modelled from the spec: the severities of a result entry (`fn.Severity`) are not
part of the sources. -/
inductive Severity where
  | Error
  | Warning
  | Info
  deriving DecidableEq

/-- Modelled from the spec: a result entry (`fn.Result`) is not part of the sources;
it is a message with a severity. -/
structure Result where
  Message : String
  Severity : Severity
  deriving DecidableEq

/-- Modelled from the spec: `fn.GeneralResult` is not part of the sources; a result
entry is a message with the given severity. -/
def GeneralResult (msg : String) (severity : Severity) : Result :=
  { Message := msg, Severity := severity }

/-- Modelled from the spec: `fn.ErrorResult` is not part of the sources; an error
entry carries the underlying fault description with severity Error. -/
def ErrorResult (err : String) : Result :=
  { Message := err, Severity := Severity.Error }

/-- The `fn.ResourceList` fields that `Run` touches. -/
structure ResourceList (Obj : Type) where
  FunctionConfig : Obj
  Items : List Obj
  Results : List Result

/-- The SDK operations called by `main.go`, taken as a parameter.  `Obj` is a
`*fn.KubeObject`, `Sub` a `*fn.SubObject`.  The two setters mutate the object in
place and return an error-or-nil: here they return the object after the call
together with the optional fault description. -/
structure Sdk (Obj Sub : Type) where
  GetMap : Obj → String → Sub
  GetString : Sub → String → String
  IsGVK : Obj → String → String → String → Bool
  GetName : Obj → String
  SetNestedField : Obj → Value → List String → Obj × Option String
  SetNestedString : Obj → String → List String → Obj × Option String

/-! ## `Run` (main.go, lines 40-106) -/

section Run

variable {Obj Sub : Type}

/-- Lines 50-65: the authorized-network block for the private GKE cluster. -/
def authNetworkStep (sdk : Sdk Obj Sub) (subNetwork : String)
    (st : List Result × Obj) : List Result × Obj :=
  if subNetwork.length > 0 ∧
      sdk.IsGVK st.2 "container.cnrm.cloud.google.com" "v1beta1" "ContainerCluster" = true then
    let authNet := Value.map [("cidrBlock", Value.str subNetwork),
                              ("displayName", Value.str "private-net")]
    let authNetwork := Value.seq [authNet]
    match sdk.SetNestedField st.2 authNetwork
        ["spec", "masterAuthorizedNetworksConfig", "cidrBlocks"] with
    | (item, some err) => (st.1 ++ [ErrorResult err], item)
    | (item, none) =>
      (st.1 ++ [GeneralResult
        "Added auth-network block for private GKE cluster to match subnetwork-range"
        Severity.Info], item)
  else st

/-- Lines 69-77: the namespace referenced by the `k8s-developer-access` policy
member.  The error returned by `SetNestedString` is dropped. -/
def iamMemberStep (sdk : Sdk Obj Sub) (namespace_ : String)
    (st : List Result × Obj) : List Result × Obj :=
  if namespace_.length > 0 ∧
      sdk.IsGVK st.2 "iam.cnrm.cloud.google.com" "v1beta1" "IAMPolicyMember" = true then
    let name := sdk.GetName st.2
    if name = "k8s-developer-access" then
      let item := (sdk.SetNestedString st.2 namespace_
        ["spec", "memberFrom", "serviceAccountRef", "namespace"]).1
      (st.1 ++ [GeneralResult "Updated k8-devloper-role referenced namesace" Severity.Info],
        item)
    else st
  else st

/-- Lines 81-87: the resource-level namespace. -/
def namespaceStep (sdk : Sdk Obj Sub) (namespace_ : String)
    (st : List Result × Obj) : List Result × Obj :=
  match sdk.SetNestedString st.2 namespace_ ["metadata", "namespace"] with
  | (item, some err) => (st.1 ++ [ErrorResult err], item)
  | (item, none) =>
    (st.1 ++ [GeneralResult ("Updated " ++ sdk.GetName item ++ " namespace") Severity.Info],
      item)

/-- Lines 91-101: the namespace of the ProjectServiceSet, set again. -/
def projectServicesStep (sdk : Sdk Obj Sub) (namespace_ : String)
    (st : List Result × Obj) : List Result × Obj :=
  if sdk.IsGVK st.2 "blueprints.cloud.google.com" "v1alpha1" "ProjectServiceSet" = true then
    if (sdk.GetString (sdk.GetMap st.2 "metadata") "namespace").length > 0 then
      match sdk.SetNestedString st.2 namespace_ ["metadata", "namespace"] with
      | (item, some err) => (st.1 ++ [ErrorResult err], item)
      | (item, none) =>
        (st.1 ++ [GeneralResult "Updated project-services namespace" Severity.Info], item)
    else st
  else st

/-- Lines 79-102: the block guarded by `len(namespace) > 0`. -/
def namespaceBlock (sdk : Sdk Obj Sub) (namespace_ : String)
    (st : List Result × Obj) : List Result × Obj :=
  if namespace_.length > 0 then
    projectServicesStep sdk namespace_ (namespaceStep sdk namespace_ st)
  else st

/-- Lines 47-103: the loop body, on the results so far and the current item. -/
def runItem (sdk : Sdk Obj Sub) (subNetwork namespace_ : String)
    (st : List Result × Obj) : List Result × Obj :=
  namespaceBlock sdk namespace_
    (iamMemberStep sdk namespace_ (authNetworkStep sdk subNetwork st))

/-- Lines 47-103: the loop `for _, item := range rl.Items`, returning the results
and the items in their final state. -/
def runItems (sdk : Sdk Obj Sub) (subNetwork namespace_ : String) :
    List Result → List Obj → List Result × List Obj
  | results, [] => (results, [])
  | results, item :: rest =>
    let st := runItem sdk subNetwork namespace_ (results, item)
    let out := runItems sdk subNetwork namespace_ st.1 rest
    (out.1, st.2 :: out.2)

/-- Lines 40-106: `Run`.  Returns the resource list after the pass, the boolean and
the error-or-nil. -/
def Run (sdk : Sdk Obj Sub) (rl : ResourceList Obj) : ResourceList Obj × Bool × Option String :=
  let ko := rl.FunctionConfig
  let dataPtr := sdk.GetMap ko "data"
  let subNetwork := sdk.GetString dataPtr "subnetwork-range"
  let namespace_ := sdk.GetString dataPtr "namespace"
  let out := runItems sdk subNetwork namespace_ rl.Results rl.Items
  ({ rl with Items := out.2, Results := out.1 }, true, none)

end Run

/-! ## A concrete SDK: field trees with path addressing -/

/-- Modelled from the spec: reading a key of a mapping is not part of the sources.
Value of the first entry with key `k`. -/
def lookup (k : String) : List (String × Value) → Option Value
  | [] => none
  | (k1, v) :: rest => if k1 = k then some v else lookup k rest

/-- Modelled from the spec: writing a key of a mapping is not part of the sources.
Replace the value of the first entry with key `k`, or append a new entry. -/
def upsert (k : String) (v : Value) : List (String × Value) → List (String × Value)
  | [] => [(k, v)]
  | (k1, v1) :: rest => if k1 = k then (k, v) :: rest else (k1, v1) :: upsert k v rest

/-- Modelled from the spec: the SDK's nested setter is not part of the sources.
Setting a path creates intermediate mappings as needed and fails when a segment is
not traversable as a mapping. -/
def setNested (val : Value) : List String → Value → Except String Value
  | [], _ => Except.error "no field is specified"
  | [k], Value.map kvs => Except.ok (Value.map (upsert k val kvs))
  | k :: k2 :: rest, Value.map kvs =>
    match setNested val (k2 :: rest) ((lookup k kvs).getD (Value.map [])) with
    | Except.ok c => Except.ok (Value.map (upsert k c kvs))
    | Except.error e => Except.error e
  | k :: _, _ => Except.error ("field " ++ k ++ " is not in a mapping")

/-- Modelled from the spec: path addressing is not part of the sources.  The value at
a path of keys, when every segment is traversable as a mapping. -/
def getNested : List String → Value → Option Value
  | [], v => some v
  | k :: rest, Value.map kvs =>
    match lookup k kvs with
    | some c => getNested rest c
    | none => none
  | _ :: _, _ => none

namespace Kube

/-- Modelled from the spec: `GetMap` is not part of the sources.  The mapping at key
`k`, or nil when absent. -/
def GetMap (o : Value) (k : String) : Option Value :=
  match o with
  | Value.map kvs =>
    match lookup k kvs with
    | some (Value.map m) => some (Value.map m)
    | _ => none
  | _ => none

/-- Modelled from the spec: `GetString` is not part of the sources.  The string at
key `k`; absent means the empty string. -/
def GetString (o : Option Value) (k : String) : String :=
  match o with
  | some (Value.map kvs) =>
    match lookup k kvs with
    | some (Value.str s) => s
    | _ => ""
  | _ => ""

/-- Modelled from the spec: splitting `group/version` is not part of the sources.
Split at the first slash. -/
def splitSlash : List Char → Option (List Char × List Char)
  | [] => none
  | c :: cs =>
    if c = '/' then some ([], cs)
    else match splitSlash cs with
      | some (g, v) => some (c :: g, v)
      | none => none

/-- Modelled from the spec: the decomposition of `apiVersion` into group and
version is not part of the sources. -/
def ParseGroupVersion (apiVersion : String) : String × String :=
  match splitSlash apiVersion.data with
  | some (g, v) => (String.mk g, String.mk v)
  | none => ("", apiVersion)

/-- Modelled from the spec: `IsGVK` is not part of the sources.  The triple is
compared for exact equality with the declared group, version and kind. -/
def IsGVK (o : Value) (group version kind : String) : Bool :=
  let gv := ParseGroupVersion (GetString (some o) "apiVersion")
  decide (GetString (some o) "kind" = kind ∧ gv.1 = group ∧ gv.2 = version)

/-- Modelled from the spec: `GetName` is not part of the sources; it is
`metadata.name`. -/
def GetName (o : Value) : String :=
  GetString (GetMap o "metadata") "name"

/-- Modelled from the spec: `SetNestedField` is not part of the sources; on a fault
the object is left as it was. -/
def SetNestedField (o : Value) (val : Value) (path : List String) : Value × Option String :=
  match setNested val path o with
  | Except.ok o1 => (o1, none)
  | Except.error e => (o, some e)

/-- Modelled from the spec: `SetNestedString` is not part of the sources. -/
def SetNestedString (o : Value) (s : String) (path : List String) : Value × Option String :=
  SetNestedField o (Value.str s) path

end Kube

/-- Modelled from the spec: the SDK over field trees, collecting the operations
above. -/
def kube : Sdk Value (Option Value) where
  GetMap := Kube.GetMap
  GetString := Kube.GetString
  IsGVK := Kube.IsGVK
  GetName := Kube.GetName
  SetNestedField := Kube.SetNestedField
  SetNestedString := Kube.SetNestedString

/-! ## Derived notions used in the statements -/

section Derived

variable {Obj Sub : Type}

/-- Lines 41-44: the `subnetwork-range` value read from the function configuration. -/
def configSubnetwork (sdk : Sdk Obj Sub) (rl : ResourceList Obj) : String :=
  sdk.GetString (sdk.GetMap rl.FunctionConfig "data") "subnetwork-range"

/-- Lines 41-45: the `namespace` value read from the function configuration. -/
def configNamespace (sdk : Sdk Obj Sub) (rl : ResourceList Obj) : String :=
  sdk.GetString (sdk.GetMap rl.FunctionConfig "data") "namespace"

/-- The entries one loop iteration appends for `item`. -/
def itemEntries (sdk : Sdk Obj Sub) (subNetwork namespace_ : String) (item : Obj) :
    List Result :=
  (runItem sdk subNetwork namespace_ ([], item)).1

/-- The state of `item` after its loop iteration. -/
def itemOut (sdk : Sdk Obj Sub) (subNetwork namespace_ : String) (item : Obj) : Obj :=
  (runItem sdk subNetwork namespace_ ([], item)).2

/-- A step only appends to the results and treats the item independently of them. -/
def Appends (f : List Result × Obj → List Result × Obj) : Prop :=
  ∀ (r : List Result) (item : Obj), f (r, item) = (r ++ (f ([], item)).1, (f ([], item)).2)

end Derived

/-- What is written under the first key of a path: the value itself for a path of
one key, the updated child otherwise. -/
def childSet (val : Value) (rest : List String) (child : Option Value) :
    Except String Value :=
  match rest with
  | [] => Except.ok val
  | k2 :: rest2 => setNested val (k2 :: rest2) (child.getD (Value.map []))

/-- The group/version/kind test and the name of an object are the same on both. -/
def SameHeader (t u : Value) : Prop :=
  (∀ g v k : String, Kube.IsGVK u g v k = Kube.IsGVK t g v k) ∧ Kube.GetName u = Kube.GetName t

/-! ## Concrete inputs -/

/-- A function configuration with both values set. -/
def exConfig : Value :=
  Value.map [("apiVersion", Value.str "v1"), ("kind", Value.str "ConfigMap"),
    ("data", Value.map [("subnetwork-range", Value.str "10.0.0.0/24"),
                        ("namespace", Value.str "team-a")])]

/-- A function configuration with only `namespace` set. -/
def exConfigNs : Value :=
  Value.map [("apiVersion", Value.str "v1"), ("kind", Value.str "ConfigMap"),
    ("data", Value.map [("namespace", Value.str "team-a")])]

/-- A function configuration with `subnetwork-range` absent and `namespace` empty. -/
def exConfigEmpty : Value :=
  Value.map [("apiVersion", Value.str "v1"), ("kind", Value.str "ConfigMap"),
    ("data", Value.map [("namespace", Value.str "")])]

/-- A cluster that already lists an authorized network. -/
def exCluster : Value :=
  Value.map [("apiVersion", Value.str "container.cnrm.cloud.google.com/v1beta1"),
    ("kind", Value.str "ContainerCluster"),
    ("metadata", Value.map [("name", Value.str "gke")]),
    ("spec", Value.map [("masterAuthorizedNetworksConfig",
      Value.map [("cidrBlocks", Value.seq [
        Value.map [("cidrBlock", Value.str "192.168.0.0/16"),
                   ("displayName", Value.str "old")]])])])]

/-- The policy member named `k8s-developer-access`. -/
def exIam : Value :=
  Value.map [("apiVersion", Value.str "iam.cnrm.cloud.google.com/v1beta1"),
    ("kind", Value.str "IAMPolicyMember"),
    ("metadata", Value.map [("name", Value.str "k8s-developer-access")])]

/-- A policy member with another name. -/
def exIamOther : Value :=
  Value.map [("apiVersion", Value.str "iam.cnrm.cloud.google.com/v1beta1"),
    ("kind", Value.str "IAMPolicyMember"),
    ("metadata", Value.map [("name", Value.str "other-binding")])]

/-- A ProjectServiceSet without a namespace. -/
def exServices : Value :=
  Value.map [("apiVersion", Value.str "blueprints.cloud.google.com/v1alpha1"),
    ("kind", Value.str "ProjectServiceSet"),
    ("metadata", Value.map [("name", Value.str "services")])]

/-- A resource of another kind. -/
def exBucket : Value :=
  Value.map [("apiVersion", Value.str "storage.cnrm.cloud.google.com/v1beta1"),
    ("kind", Value.str "StorageBucket"),
    ("metadata", Value.map [("name", Value.str "bucket"), ("namespace", Value.str "old")])]

section Generic
variable {Obj Sub : Type}

theorem length_pos_iff (s : String) : s.length > 0 ↔ s ≠ "" := by
  constructor
  · intro h e; subst e; simp at h
  · intro h
    cases s with
    | mk d =>
      cases d with
      | nil => exact absurd rfl h
      | cons c cs => simp [String.length]

theorem Appends.comp {f g : List Result × Obj → List Result × Obj}
    (hf : Appends f) (hg : Appends g) : Appends (fun st => g (f st)) := by
  intro r item
  show g (f (r, item)) = (r ++ (g (f ([], item))).1, (g (f ([], item))).2)
  rw [hf r item, hg (r ++ (f ([], item)).1) (f ([], item)).2]
  have h2 : f ([], item) = ((f ([], item)).1, (f ([], item)).2) := rfl
  rw [h2, hg (f ([], item)).1 (f ([], item)).2]
  simp [List.append_assoc]

theorem authNetworkStep_appends (sdk : Sdk Obj Sub) (s : String) :
    Appends (authNetworkStep sdk s) := by
  intro r item
  unfold authNetworkStep
  simp only
  split
  · split <;> simp_all
  · simp

theorem iamMemberStep_appends (sdk : Sdk Obj Sub) (n : String) :
    Appends (iamMemberStep sdk n) := by
  intro r item
  unfold iamMemberStep
  simp only
  split
  · split <;> simp
  · simp

theorem namespaceStep_appends (sdk : Sdk Obj Sub) (n : String) :
    Appends (namespaceStep sdk n) := by
  intro r item
  unfold namespaceStep
  simp only
  split <;> simp_all

theorem projectServicesStep_appends (sdk : Sdk Obj Sub) (n : String) :
    Appends (projectServicesStep sdk n) := by
  intro r item
  unfold projectServicesStep
  simp only
  split
  · split
    · split <;> simp_all
    · simp
  · simp

theorem namespaceBlock_appends (sdk : Sdk Obj Sub) (n : String) :
    Appends (namespaceBlock sdk n) := by
  by_cases h : n.length > 0
  · have e : namespaceBlock sdk n
        = fun st => projectServicesStep sdk n (namespaceStep sdk n st) := by
      funext st; simp [namespaceBlock, h]
    rw [e]
    exact (namespaceStep_appends sdk n).comp (projectServicesStep_appends sdk n)
  · intro r item
    simp [namespaceBlock, h]

theorem runItem_appends (sdk : Sdk Obj Sub) (s n : String) : Appends (runItem sdk s n) :=
  ((authNetworkStep_appends sdk s).comp (iamMemberStep_appends sdk n)).comp
    (namespaceBlock_appends sdk n)

theorem runItem_eq (sdk : Sdk Obj Sub) (s n : String) (r : List Result) (item : Obj) :
    runItem sdk s n (r, item) = (r ++ itemEntries sdk s n item, itemOut sdk s n item) :=
  runItem_appends sdk s n r item

theorem runItems_eq (sdk : Sdk Obj Sub) (s n : String) (r : List Result) (items : List Obj) :
    runItems sdk s n r items
      = (r ++ items.flatMap (itemEntries sdk s n), items.map (itemOut sdk s n)) := by
  induction items generalizing r with
  | nil => simp [runItems]
  | cons item rest ih =>
    simp only [runItems, runItem_eq, ih, List.flatMap_cons, List.map_cons, List.append_assoc]

theorem Run_Items (sdk : Sdk Obj Sub) (rl : ResourceList Obj) :
    (Run sdk rl).1.Items
      = rl.Items.map (itemOut sdk (configSubnetwork sdk rl) (configNamespace sdk rl)) := by
  simp [Run, runItems_eq, configSubnetwork, configNamespace]

theorem Run_Results (sdk : Sdk Obj Sub) (rl : ResourceList Obj) :
    (Run sdk rl).1.Results
      = rl.Results ++
        rl.Items.flatMap (itemEntries sdk (configSubnetwork sdk rl) (configNamespace sdk rl)) := by
  simp [Run, runItems_eq, configSubnetwork, configNamespace]

end Generic

/-! ## Laws of the field-tree model -/

theorem lookup_upsert_self (k : String) (v : Value) (kvs : List (String × Value)) :
    lookup k (upsert k v kvs) = some v := by
  induction kvs with
  | nil => simp [upsert, lookup]
  | cons p rest ih =>
    obtain ⟨k1, v1⟩ := p
    by_cases h : k1 = k
    · simp [upsert, lookup, h]
    · simp [upsert, lookup, h, ih]

theorem lookup_upsert_ne (k k2 : String) (v : Value) (kvs : List (String × Value))
    (h : k ≠ k2) : lookup k2 (upsert k v kvs) = lookup k2 kvs := by
  induction kvs with
  | nil => simp [upsert, lookup, h]
  | cons p rest ih =>
    obtain ⟨k1, v1⟩ := p
    by_cases h1 : k1 = k
    · subst h1
      simp [upsert, lookup, h]
    · simp only [upsert, h1, if_false, lookup, ih]

theorem upsert_upsert_self (k : String) (v w : Value) (kvs : List (String × Value)) :
    upsert k v (upsert k w kvs) = upsert k v kvs := by
  induction kvs with
  | nil => simp [upsert]
  | cons p rest ih =>
    obtain ⟨k1, v1⟩ := p
    by_cases h : k1 = k
    · simp [upsert, h]
    · simp [upsert, h, ih]

theorem upsert_of_lookup (k : String) (v : Value) (kvs : List (String × Value))
    (h : lookup k kvs = some v) : upsert k v kvs = kvs := by
  induction kvs with
  | nil => simp [lookup] at h
  | cons p rest ih =>
    obtain ⟨k1, v1⟩ := p
    by_cases h1 : k1 = k
    · simp [lookup, h1] at h
      simp [upsert, h1, h]
    · simp [lookup, h1] at h
      simp [upsert, h1, ih h]

theorem setNested_cons_map (val : Value) (k : String) (rest : List String)
    (kvs : List (String × Value)) :
    setNested val (k :: rest) (Value.map kvs)
      = match childSet val rest (lookup k kvs) with
        | Except.ok c => Except.ok (Value.map (upsert k c kvs))
        | Except.error e => Except.error e := by
  cases rest with
  | nil => simp [setNested, childSet]
  | cons k2 rest2 => simp [setNested, childSet]

theorem setNested_ok_shape (val : Value) (k : String) (rest : List String) (t t2 : Value)
    (h : setNested val (k :: rest) t = Except.ok t2) :
    ∃ kvs c, t = Value.map kvs ∧ childSet val rest (lookup k kvs) = Except.ok c
      ∧ t2 = Value.map (upsert k c kvs) := by
  cases t with
  | str s => cases rest <;> simp [setNested] at h
  | seq xs => cases rest <;> simp [setNested] at h
  | map kvs =>
    rw [setNested_cons_map] at h
    cases hc : childSet val rest (lookup k kvs) with
    | error e => simp [hc] at h
    | ok c =>
      simp [hc] at h
      exact ⟨kvs, c, rfl, hc, h.symm⟩

theorem setNested_get (val : Value) (p : List String) (t t2 : Value)
    (h : setNested val p t = Except.ok t2) : getNested p t2 = some val := by
  induction p generalizing t t2 with
  | nil => simp [setNested] at h
  | cons k rest ih =>
    obtain ⟨kvs, c, _, hc, rfl⟩ := setNested_ok_shape val k rest t t2 h
    cases rest with
    | nil =>
      simp [childSet] at hc
      subst hc
      simp [getNested, lookup_upsert_self]
    | cons k2 rest2 =>
      simp only [childSet] at hc
      simp [getNested, lookup_upsert_self, ih _ _ hc]

theorem setNested_idem (val : Value) (p : List String) (t t2 : Value)
    (h : setNested val p t = Except.ok t2) : setNested val p t2 = Except.ok t2 := by
  induction p generalizing t t2 with
  | nil => simp [setNested] at h
  | cons k rest ih =>
    obtain ⟨kvs, c, _, hc, rfl⟩ := setNested_ok_shape val k rest t t2 h
    rw [setNested_cons_map, lookup_upsert_self]
    cases rest with
    | nil =>
      simp [childSet] at hc ⊢
      subst hc
      simp [upsert_upsert_self]
    | cons k2 rest2 =>
      simp only [childSet] at hc ⊢
      simp [Option.getD, ih _ _ hc, upsert_upsert_self]

namespace Kube

theorem SetNestedField_cases (t val : Value) (p : List String) :
    (∃ t2, setNested val p t = Except.ok t2 ∧ SetNestedField t val p = (t2, none))
    ∨ (∃ e, setNested val p t = Except.error e ∧ SetNestedField t val p = (t, some e)) := by
  unfold SetNestedField
  cases h : setNested val p t with
  | ok t2 => exact Or.inl ⟨t2, rfl, rfl⟩
  | error e => exact Or.inr ⟨e, rfl, rfl⟩

theorem SetNestedField_idem (t val : Value) (p : List String) :
    SetNestedField (SetNestedField t val p).1 val p
      = ((SetNestedField t val p).1, (SetNestedField t val p).2) := by
  rcases SetNestedField_cases t val p with ⟨t2, h, e⟩ | ⟨err, h, e⟩
  · rw [e]
    simp [SetNestedField, setNested_idem val p t t2 h]
  · rw [e]
    simp [SetNestedField, h]

theorem SetNestedField_get (t val : Value) (p : List String)
    (h : (SetNestedField t val p).2 = none) :
    getNested p (SetNestedField t val p).1 = some val := by
  rcases SetNestedField_cases t val p with ⟨t2, h2, e⟩ | ⟨err, h2, e⟩
  · rw [e]; exact setNested_get val p t t2 h2
  · rw [e] at h; simp at h

/-- A setter that has nothing left to do at `t`, or fails at `t`, behaves the same
after a setter on another top-level key has run. -/
theorem SetNestedField_fixed_other (t val val2 : Value) (k k2 : String)
    (rest rest2 : List String) (e : Option String) (hk : k2 ≠ k)
    (h : SetNestedField t val (k :: rest) = (t, e)) :
    SetNestedField (SetNestedField t val2 (k2 :: rest2)).1 val (k :: rest)
      = ((SetNestedField t val2 (k2 :: rest2)).1, e) := by
  rcases SetNestedField_cases t val2 (k2 :: rest2) with ⟨t2, h2, e2⟩ | ⟨err, h2, e2⟩
  · rw [e2]
    obtain ⟨kvs, c, rfl, _, rfl⟩ := setNested_ok_shape val2 k2 rest2 t t2 h2
    simp only [SetNestedField, setNested_cons_map, lookup_upsert_ne k2 k c kvs hk] at h ⊢
    cases hc : childSet val rest (lookup k kvs) with
    | error e3 =>
      simp only [hc] at h ⊢
      simp at h
      simp [h]
    | ok c3 =>
      simp only [hc] at h ⊢
      simp only [Prod.mk.injEq, Value.map.injEq] at h
      obtain ⟨h3, h4⟩ := h
      have hl : lookup k kvs = some c3 := by
        rw [← h3]; exact lookup_upsert_self k c3 kvs
      have hl2 : lookup k (upsert k2 c kvs) = some c3 := by
        rw [lookup_upsert_ne k2 k c kvs hk]; exact hl
      simp [upsert_of_lookup k c3 _ hl2, h4]
  · rw [e2]; exact h

theorem GetString_set_other (t val : Value) (k key : String) (rest : List String)
    (hk : k ≠ key) :
    GetString (some (SetNestedField t val (k :: rest)).1) key = GetString (some t) key := by
  rcases SetNestedField_cases t val (k :: rest) with ⟨t2, h2, e2⟩ | ⟨err, h2, e2⟩
  · rw [e2]
    obtain ⟨kvs, c, rfl, _, rfl⟩ := setNested_ok_shape val k rest t t2 h2
    simp [GetString, lookup_upsert_ne k key c kvs hk]
  · rw [e2]

theorem GetMap_set_other (t val : Value) (k key : String) (rest : List String)
    (hk : k ≠ key) :
    GetMap (SetNestedField t val (k :: rest)).1 key = GetMap t key := by
  rcases SetNestedField_cases t val (k :: rest) with ⟨t2, h2, e2⟩ | ⟨err, h2, e2⟩
  · rw [e2]
    obtain ⟨kvs, c, rfl, _, rfl⟩ := setNested_ok_shape val k rest t t2 h2
    simp [GetMap, lookup_upsert_ne k key c kvs hk]
  · rw [e2]

theorem IsGVK_set (t val : Value) (k : String) (rest : List String) (g v kd : String)
    (h1 : k ≠ "apiVersion") (h2 : k ≠ "kind") :
    IsGVK (SetNestedField t val (k :: rest)).1 g v kd = IsGVK t g v kd := by
  simp only [IsGVK, GetString_set_other t val k _ rest h1, GetString_set_other t val k _ rest h2]

theorem IsGVK_kind (t : Value) (g v kd : String) (h : IsGVK t g v kd = true) :
    GetString (some t) "kind" = kd := by
  simp [IsGVK] at h
  exact h.1

theorem GetName_set_spec (t val : Value) (rest : List String) :
    GetName (SetNestedField t val ("spec" :: rest)).1 = GetName t := by
  simp only [GetName, GetMap_set_other t val "spec" "metadata" rest (by decide)]

theorem GetName_set_namespace (t : Value) (n : String) :
    GetName (SetNestedField t (Value.str n) ["metadata", "namespace"]).1 = GetName t := by
  rcases SetNestedField_cases t (Value.str n) ["metadata", "namespace"] with
    ⟨t2, h2, e2⟩ | ⟨err, h2, e2⟩
  · rw [e2]
    obtain ⟨kvs, c, rfl, hc, rfl⟩ := setNested_ok_shape _ _ _ t t2 h2
    simp only [childSet] at hc
    obtain ⟨m, c2, hm, hc2, rfl⟩ := setNested_ok_shape _ _ _ _ c hc
    simp only [childSet, Except.ok.injEq] at hc2
    subst hc2
    simp only [GetName, GetMap, lookup_upsert_self]
    cases hl : lookup "metadata" kvs with
    | none =>
      simp only [hl, Option.getD, Value.map.injEq] at hm
      subst hm
      simp [GetString, upsert, lookup]
    | some c0 =>
      simp only [hl, Option.getD] at hm
      subst hm
      simp [GetString, lookup_upsert_ne "namespace" "name" _ m (by decide)]
  · rw [e2]

theorem GetString_namespace_of_set (t : Value) (n : String)
    (h : (SetNestedField t (Value.str n) ["metadata", "namespace"]).2 = none) :
    GetString (GetMap (SetNestedField t (Value.str n) ["metadata", "namespace"]).1 "metadata")
      "namespace" = n := by
  rcases SetNestedField_cases t (Value.str n) ["metadata", "namespace"] with
    ⟨t2, h2, e2⟩ | ⟨err, h2, e2⟩
  · rw [e2]
    obtain ⟨kvs, c, rfl, hc, rfl⟩ := setNested_ok_shape _ _ _ t t2 h2
    simp only [childSet] at hc
    obtain ⟨m, c2, hm, hc2, rfl⟩ := setNested_ok_shape _ _ _ _ c hc
    simp only [childSet, Except.ok.injEq] at hc2
    subst hc2
    simp [GetMap, GetString, lookup_upsert_self]
  · rw [e2] at h; simp at h

end Kube

namespace Kube

theorem getNested_set_other (t val : Value) (k k2 : String) (rest rest2 : List String)
    (hk : k ≠ k2) :
    getNested (k2 :: rest2) (SetNestedField t val (k :: rest)).1 = getNested (k2 :: rest2) t := by
  rcases SetNestedField_cases t val (k :: rest) with ⟨t2, h2, e2⟩ | ⟨err, h2, e2⟩
  · rw [e2]
    obtain ⟨kvs, c, rfl, _, rfl⟩ := setNested_ok_shape val k rest t t2 h2
    simp [getNested, lookup_upsert_ne k k2 c kvs hk]
  · rw [e2]

theorem SetNestedField_status_other (t val val2 : Value) (k k2 : String)
    (rest rest2 : List String) (hk : k2 ≠ k) :
    (SetNestedField (SetNestedField t val2 (k2 :: rest2)).1 val (k :: rest)).2
      = (SetNestedField t val (k :: rest)).2 := by
  rcases SetNestedField_cases t val2 (k2 :: rest2) with ⟨t2, h2, e2⟩ | ⟨err, h2, e2⟩
  · rw [e2]
    obtain ⟨kvs, c, rfl, _, rfl⟩ := setNested_ok_shape val2 k2 rest2 t t2 h2
    simp only [SetNestedField, setNested_cons_map, lookup_upsert_ne k2 k c kvs hk]
    cases hc : childSet val rest (lookup k kvs) <;> simp
  · rw [e2]

theorem IsGVK_exclusive (t : Value) (g v kd g2 v2 kd2 : String) (hne : kd ≠ kd2)
    (h : IsGVK t g v kd = true) : IsGVK t g2 v2 kd2 = false := by
  have h1 := IsGVK_kind t g v kd h
  cases h2 : IsGVK t g2 v2 kd2 with
  | false => rfl
  | true => exact absurd ((IsGVK_kind t g2 v2 kd2 h2).symm.trans h1).symm hne

end Kube

theorem kube_GetMap : kube.GetMap = Kube.GetMap := rfl
theorem kube_GetString : kube.GetString = Kube.GetString := rfl
theorem kube_IsGVK : kube.IsGVK = Kube.IsGVK := rfl
theorem kube_GetName : kube.GetName = Kube.GetName := rfl
theorem kube_SetNestedField : kube.SetNestedField = Kube.SetNestedField := rfl
theorem kube_SetNestedString : kube.SetNestedString = Kube.SetNestedString := rfl

/-- On field trees the ProjectServiceSet step never changes an object that the
namespace step has just produced. -/
theorem projectServicesStep_kube_obj (n : String) (r : List Result) (t : Value) :
    (projectServicesStep kube n
      (r, (Kube.SetNestedString t n ["metadata", "namespace"]).1)).2
      = (Kube.SetNestedString t n ["metadata", "namespace"]).1 := by
  have hi := Kube.SetNestedField_idem t (Value.str n) ["metadata", "namespace"]
  unfold projectServicesStep
  simp only [kube_IsGVK, kube_GetString, kube_GetMap, kube_SetNestedString,
    Kube.SetNestedString]
  split
  · split
    · rw [hi]
      split <;> simp_all
    · rfl
  · rfl

theorem namespaceStep_kube_obj (n : String) (r : List Result) (t : Value) :
    (namespaceStep kube n (r, t)).2 = (Kube.SetNestedString t n ["metadata", "namespace"]).1 := by
  unfold namespaceStep
  simp only [kube_SetNestedString]
  split <;> simp_all

theorem namespaceBlock_kube_obj (n : String) (r : List Result) (t : Value)
    (hn : n.length > 0) :
    (namespaceBlock kube n (r, t)).2
      = (Kube.SetNestedString t n ["metadata", "namespace"]).1 := by
  have h1 := namespaceStep_kube_obj n r t
  have e : namespaceStep kube n (r, t)
      = ((namespaceStep kube n (r, t)).1,
          (Kube.SetNestedString t n ["metadata", "namespace"]).1) := by
    rw [← h1]
  simp only [namespaceBlock, hn, if_true]
  rw [e]
  exact projectServicesStep_kube_obj n _ t

section Skips
variable {Obj Sub : Type}

theorem authNetworkStep_skip (sdk : Sdk Obj Sub) (s : String) (st : List Result × Obj)
    (h : ¬ (s.length > 0 ∧
      sdk.IsGVK st.2 "container.cnrm.cloud.google.com" "v1beta1" "ContainerCluster" = true)) :
    authNetworkStep sdk s st = st := by
  unfold authNetworkStep
  rw [if_neg h]

theorem iamMemberStep_skip (sdk : Sdk Obj Sub) (n : String) (st : List Result × Obj)
    (h : ¬ (n.length > 0 ∧
      sdk.IsGVK st.2 "iam.cnrm.cloud.google.com" "v1beta1" "IAMPolicyMember" = true
      ∧ sdk.GetName st.2 = "k8s-developer-access")) :
    iamMemberStep sdk n st = st := by
  unfold iamMemberStep
  by_cases h1 : n.length > 0 ∧
      sdk.IsGVK st.2 "iam.cnrm.cloud.google.com" "v1beta1" "IAMPolicyMember" = true
  · rw [if_pos h1]
    have h2 : ¬ sdk.GetName st.2 = "k8s-developer-access" := fun h3 => h ⟨h1.1, h1.2, h3⟩
    simp only [h2, if_false]
  · rw [if_neg h1]

theorem projectServicesStep_skip (sdk : Sdk Obj Sub) (n : String) (st : List Result × Obj)
    (h : sdk.IsGVK st.2 "blueprints.cloud.google.com" "v1alpha1" "ProjectServiceSet" = false) :
    projectServicesStep sdk n st = st := by
  unfold projectServicesStep
  simp [h]

theorem Run_Items_getElem (sdk : Sdk Obj Sub) (rl : ResourceList Obj) (i : Nat) (item : Obj)
    (hi : rl.Items[i]? = some item) :
    (Run sdk rl).1.Items[i]?
      = some (itemOut sdk (configSubnetwork sdk rl) (configNamespace sdk rl) item) := by
  rw [Run_Items, List.getElem?_map, hi]
  rfl

end Skips

/-- The state of an item after its iteration, on field trees, when the
authorized-network step ran. -/
theorem itemOut_cluster (s n : String) (item : Value) (hs : s.length > 0)
    (hg : Kube.IsGVK item "container.cnrm.cloud.google.com" "v1beta1" "ContainerCluster"
      = true) :
    itemOut kube s n item
      = (namespaceBlock kube n
          ((authNetworkStep kube s ([], item)).1,
            (Kube.SetNestedField item
              (Value.seq [Value.map [("cidrBlock", Value.str s),
                                     ("displayName", Value.str "private-net")]])
              ["spec", "masterAuthorizedNetworksConfig", "cidrBlocks"]).1)).2 := by
  have h1 : (authNetworkStep kube s ([], item)).2
      = (Kube.SetNestedField item
              (Value.seq [Value.map [("cidrBlock", Value.str s),
                                     ("displayName", Value.str "private-net")]])
              ["spec", "masterAuthorizedNetworksConfig", "cidrBlocks"]).1 := by
    unfold authNetworkStep
    simp only [kube_IsGVK, kube_SetNestedField, hs, hg, and_self, if_true]
    split <;> simp_all
  have h2 : iamMemberStep kube n (authNetworkStep kube s ([], item))
      = authNetworkStep kube s ([], item) := by
    apply iamMemberStep_skip
    rintro ⟨_, h3, _⟩
    rw [h1, kube_IsGVK, Kube.IsGVK_set _ _ _ _ _ _ _ (by decide) (by decide),
      Kube.IsGVK_exclusive item _ _ _ _ _ _ (by decide) hg] at h3
    exact Bool.noConfusion h3
  simp only [itemOut, runItem, h2]
  rw [← h1]

/-- C2 (cluster patch exactness): for a non-empty `subnetwork-range` value, any
`namespace` value and a ContainerCluster resource at any position of the list on which
the field-set of step 1 succeeds, the resource at that position after `Run` holds, at
`spec.masterAuthorizedNetworksConfig.cidrBlocks`, exactly the one-element sequence with
the record of `cidrBlock` and `displayName`, whatever the tree held before; and step 1
appends exactly one entry for that resource, of severity Info. -/
theorem cluster_patch_exact (rl : ResourceList Value) (i : Nat) (item : Value)
    (hs : configSubnetwork kube rl ≠ "")
    (hi : rl.Items[i]? = some item)
    (hg : Kube.IsGVK item "container.cnrm.cloud.google.com" "v1beta1" "ContainerCluster"
      = true)
    (hset : (Kube.SetNestedField item
        (Value.seq [Value.map [("cidrBlock", Value.str (configSubnetwork kube rl)),
                               ("displayName", Value.str "private-net")]])
        ["spec", "masterAuthorizedNetworksConfig", "cidrBlocks"]).2 = none) :
    ∃ out, (Run kube rl).1.Items[i]? = some out
      ∧ getNested ["spec", "masterAuthorizedNetworksConfig", "cidrBlocks"] out
          = some (Value.seq [Value.map [("cidrBlock", Value.str (configSubnetwork kube rl)),
                                        ("displayName", Value.str "private-net")]])
      ∧ ∀ r : List Result,
          (authNetworkStep kube (configSubnetwork kube rl) (r, item)).1
            = r ++ [GeneralResult
                "Added auth-network block for private GKE cluster to match subnetwork-range"
                Severity.Info] := by
  have hs2 : (configSubnetwork kube rl).length > 0 := (length_pos_iff _).2 hs
  refine ⟨_, Run_Items_getElem kube rl i item hi, ?_, ?_⟩
  · rw [itemOut_cluster _ _ item hs2 hg]
    by_cases hn : (configNamespace kube rl).length > 0
    · rw [namespaceBlock_kube_obj _ _ _ hn, Kube.SetNestedString,
        Kube.getNested_set_other _ _ _ _ _ _ (by decide)]
      exact Kube.SetNestedField_get _ _ _ hset
    · simp only [namespaceBlock, hn, if_false]
      exact Kube.SetNestedField_get _ _ _ hset
  · intro r
    unfold authNetworkStep
    simp only [kube_IsGVK, kube_SetNestedField, hs2, hg, and_self, if_true]
    split
    · rename_i item2 err heq
      rw [heq] at hset
      simp at hset
    · rfl

theorem authNetworkStep_kube_obj (s : String) (st : List Result × Value) :
    (authNetworkStep kube s st).2 = st.2
    ∨ (authNetworkStep kube s st).2
        = (Kube.SetNestedField st.2
            (Value.seq [Value.map [("cidrBlock", Value.str s),
                                   ("displayName", Value.str "private-net")]])
            ["spec", "masterAuthorizedNetworksConfig", "cidrBlocks"]).1 := by
  unfold authNetworkStep
  simp only [kube_SetNestedField]
  split
  · right
    split <;> simp_all
  · left; rfl

theorem iamMemberStep_kube_obj (n : String) (st : List Result × Value) :
    (iamMemberStep kube n st).2 = st.2
    ∨ (iamMemberStep kube n st).2
        = (Kube.SetNestedField st.2 (Value.str n)
            ["spec", "memberFrom", "serviceAccountRef", "namespace"]).1 := by
  unfold iamMemberStep
  simp only [kube_SetNestedString, Kube.SetNestedString]
  split
  · split
    · right; rfl
    · left; rfl
  · left; rfl

/-- The two steps that write under `spec` leave everything outside `spec` as it was:
a setter on another top-level key succeeds or fails after them as it did before. -/
theorem specSteps_status (s n : String) (r : List Result) (item val : Value) (k : String)
    (rest : List String) (hk : "spec" ≠ k) :
    (Kube.SetNestedField (iamMemberStep kube n (authNetworkStep kube s (r, item))).2 val
        (k :: rest)).2
      = (Kube.SetNestedField item val (k :: rest)).2 := by
  have h1 : (Kube.SetNestedField (authNetworkStep kube s (r, item)).2 val (k :: rest)).2
      = (Kube.SetNestedField item val (k :: rest)).2 := by
    rcases authNetworkStep_kube_obj s (r, item) with h | h
    · rw [h]
    · rw [h, Kube.SetNestedField_status_other _ _ _ _ _ _ _ hk]
  rcases iamMemberStep_kube_obj n (authNetworkStep kube s (r, item)) with h | h
  · rw [h, h1]
  · rw [h, Kube.SetNestedField_status_other _ _ _ _ _ _ _ hk, h1]

/-- C3 (universal namespace stamping): for a non-empty `namespace` value, any
`subnetwork-range` value and a resource of any kind and name, at any position of the
list, on which the field-set of `metadata.namespace` succeeds, the resource at that
position after `Run` has `metadata.namespace` equal to the configured namespace, both as
a value of the tree and as read back through `GetMap` and `GetString`. -/
theorem namespace_stamped (rl : ResourceList Value) (i : Nat) (item : Value)
    (hn : configNamespace kube rl ≠ "")
    (hi : rl.Items[i]? = some item)
    (hset : (Kube.SetNestedString item (configNamespace kube rl)
        ["metadata", "namespace"]).2 = none) :
    ∃ out, (Run kube rl).1.Items[i]? = some out
      ∧ getNested ["metadata", "namespace"] out = some (Value.str (configNamespace kube rl))
      ∧ Kube.GetString (Kube.GetMap out "metadata") "namespace" = configNamespace kube rl := by
  have hn2 : (configNamespace kube rl).length > 0 := (length_pos_iff _).2 hn
  refine ⟨_, Run_Items_getElem kube rl i item hi, ?_, ?_⟩
  all_goals
    have hst := specSteps_status (configSubnetwork kube rl) (configNamespace kube rl) []
      item (Value.str (configNamespace kube rl)) "metadata" ["namespace"] (by decide)
    rw [show Kube.SetNestedField item (Value.str (configNamespace kube rl))
      ["metadata", "namespace"] = Kube.SetNestedString item (configNamespace kube rl)
      ["metadata", "namespace"] from rfl, hset] at hst
    simp only [itemOut, runItem]
    rw [show iamMemberStep kube (configNamespace kube rl)
        (authNetworkStep kube (configSubnetwork kube rl) ([], item))
      = ((iamMemberStep kube (configNamespace kube rl)
          (authNetworkStep kube (configSubnetwork kube rl) ([], item))).1,
         (iamMemberStep kube (configNamespace kube rl)
          (authNetworkStep kube (configSubnetwork kube rl) ([], item))).2) from rfl,
      namespaceBlock_kube_obj _ _ _ hn2]
  · exact Kube.SetNestedField_get _ _ _ hst
  · exact Kube.GetString_namespace_of_set _ _ hst

theorem namespaceStep_kube_ok (n : String) (r : List Result) (t : Value)
    (hset : (Kube.SetNestedString t n ["metadata", "namespace"]).2 = none) :
    namespaceStep kube n (r, t)
      = (r ++ [GeneralResult ("Updated " ++ Kube.GetName t ++ " namespace") Severity.Info],
          (Kube.SetNestedString t n ["metadata", "namespace"]).1) := by
  have hname := Kube.GetName_set_namespace t n
  unfold namespaceStep
  simp only [kube_SetNestedString, kube_GetName]
  split
  · rename_i item2 err heq
    rw [heq] at hset
    simp at hset
  · rename_i item2 heq
    have e : item2 = (Kube.SetNestedString t n ["metadata", "namespace"]).1 := by rw [heq]
    rw [e]
    simp only [Kube.SetNestedString] at hname ⊢
    rw [hname]

theorem projectServicesStep_kube_ok (n : String) (r : List Result) (t : Value)
    (hn : n.length > 0)
    (hg : Kube.IsGVK t "blueprints.cloud.google.com" "v1alpha1" "ProjectServiceSet" = true)
    (hset : (Kube.SetNestedString t n ["metadata", "namespace"]).2 = none) :
    projectServicesStep kube n (r, (Kube.SetNestedString t n ["metadata", "namespace"]).1)
      = (r ++ [GeneralResult "Updated project-services namespace" Severity.Info],
          (Kube.SetNestedString t n ["metadata", "namespace"]).1) := by
  have hi := Kube.SetNestedField_idem t (Value.str n) ["metadata", "namespace"]
  have hg2 : Kube.IsGVK (Kube.SetNestedString t n ["metadata", "namespace"]).1
      "blueprints.cloud.google.com" "v1alpha1" "ProjectServiceSet" = true := by
    rw [Kube.SetNestedString, Kube.IsGVK_set _ _ _ _ _ _ _ (by decide) (by decide)]
    exact hg
  have hm := Kube.GetString_namespace_of_set t n hset
  simp only [Kube.SetNestedString] at hi hg2 hm hset ⊢
  unfold projectServicesStep
  simp only [kube_IsGVK, kube_GetString, kube_GetMap, kube_SetNestedString,
    Kube.SetNestedString, hg2, hm, hn, if_true, hi, hset]

/-- C9 (ProjectServiceSet double set): for a non-empty `namespace` value and a
ProjectServiceSet resource on which the field-set of step 3 succeeds, step 3 appends the
Info entry naming the resource, the namespace read back for the guard of step 4 is
non-empty, step 4 appends its Info entry and leaves the object exactly as step 3 left
it, with `metadata.namespace` equal to the namespace; the whole iteration appends these
two Info entries in this order. -/
theorem project_service_set_double_set (s n : String) (r : List Result) (item : Value)
    (hn : n ≠ "")
    (hg : Kube.IsGVK item "blueprints.cloud.google.com" "v1alpha1" "ProjectServiceSet" = true)
    (hset : (Kube.SetNestedString item n ["metadata", "namespace"]).2 = none) :
    namespaceStep kube n (r, item)
        = (r ++ [GeneralResult ("Updated " ++ Kube.GetName item ++ " namespace")
            Severity.Info],
            (Kube.SetNestedString item n ["metadata", "namespace"]).1)
    ∧ (Kube.GetString (Kube.GetMap
          (Kube.SetNestedString item n ["metadata", "namespace"]).1 "metadata")
          "namespace").length > 0
    ∧ (∀ r2 : List Result,
        projectServicesStep kube n
            (r2, (Kube.SetNestedString item n ["metadata", "namespace"]).1)
          = (r2 ++ [GeneralResult "Updated project-services namespace" Severity.Info],
              (Kube.SetNestedString item n ["metadata", "namespace"]).1))
    ∧ getNested ["metadata", "namespace"]
          (Kube.SetNestedString item n ["metadata", "namespace"]).1 = some (Value.str n)
    ∧ runItem kube s n (r, item)
        = (r ++ [GeneralResult ("Updated " ++ Kube.GetName item ++ " namespace")
                  Severity.Info,
                 GeneralResult "Updated project-services namespace" Severity.Info],
            (Kube.SetNestedString item n ["metadata", "namespace"]).1) := by
  have hn2 : n.length > 0 := (length_pos_iff _).2 hn
  have h3 := namespaceStep_kube_ok n r item hset
  have h4 := fun r2 => projectServicesStep_kube_ok n r2 item hn2 hg hset
  refine ⟨h3, ?_, h4, Kube.SetNestedField_get _ _ _ hset, ?_⟩
  · have hm : Kube.GetString (Kube.GetMap
          (Kube.SetNestedString item n ["metadata", "namespace"]).1 "metadata")
          "namespace" = n := Kube.GetString_namespace_of_set item n hset
    rw [hm]
    exact hn2
  · have h1 : authNetworkStep kube s (r, item) = (r, item) := by
      apply authNetworkStep_skip
      rintro ⟨_, h⟩
      rw [kube_IsGVK, Kube.IsGVK_exclusive item _ _ _ _ _ _ (by decide) hg] at h
      exact Bool.noConfusion h
    have h2 : iamMemberStep kube n (r, item) = (r, item) := by
      apply iamMemberStep_skip
      rintro ⟨_, h, _⟩
      rw [kube_IsGVK, Kube.IsGVK_exclusive item _ _ _ _ _ _ (by decide) hg] at h
      exact Bool.noConfusion h
    simp only [runItem, h1, h2, namespaceBlock, hn2, if_true, h3, h4, List.append_assoc,
      List.singleton_append]

/-- C6 as stated does not hold: with `subnetwork-range` empty, `namespace` set and no
field-set failing, a ProjectServiceSet resource gets two entries, not one. -/
theorem services_get_two_entries :
    configSubnetwork kube ⟨exConfigNs, [exServices], []⟩ = ""
    ∧ configNamespace kube ⟨exConfigNs, [exServices], []⟩ = "team-a"
    ∧ (Kube.SetNestedString exServices "team-a" ["metadata", "namespace"]).2 = none
    ∧ (Run kube ⟨exConfigNs, [exServices], []⟩).1.Results
        = [GeneralResult "Updated services namespace" Severity.Info,
           GeneralResult "Updated project-services namespace" Severity.Info] := by
  refine ⟨by decide, by decide, by decide, by decide⟩

theorem itemEntries_plain (n : String) (item : Value) (hn : n.length > 0)
    (hiam : ¬ (Kube.IsGVK item "iam.cnrm.cloud.google.com" "v1beta1" "IAMPolicyMember" = true
      ∧ Kube.GetName item = "k8s-developer-access"))
    (hpss : Kube.IsGVK item "blueprints.cloud.google.com" "v1alpha1" "ProjectServiceSet"
      = false)
    (hset : (Kube.SetNestedString item n ["metadata", "namespace"]).2 = none) :
    itemEntries kube "" n item
      = [GeneralResult ("Updated " ++ Kube.GetName item ++ " namespace") Severity.Info] := by
  have h1 : authNetworkStep kube "" ([], item) = ([], item) := by
    apply authNetworkStep_skip
    rintro ⟨h, _⟩
    simp at h
  have h2 : iamMemberStep kube n ([], item) = ([], item) := by
    apply iamMemberStep_skip
    rintro ⟨_, h3, h4⟩
    exact hiam ⟨h3, h4⟩
  have h3 : projectServicesStep kube n (namespaceStep kube n ([], item))
      = namespaceStep kube n ([], item) := by
    apply projectServicesStep_skip
    rw [namespaceStep_kube_obj, kube_IsGVK, Kube.SetNestedString,
      Kube.IsGVK_set _ _ _ _ _ _ _ (by decide) (by decide)]
    exact hpss
  simp only [itemEntries, runItem, h1, h2, namespaceBlock, hn, if_true, h3]
  rw [namespaceStep_kube_ok n [] item hset]
  rfl

/-- C6, amended: with `subnetwork-range` empty and `namespace` non-empty, for a list
of resources none of which is the IAMPolicyMember named `k8s-developer-access` or a
ProjectServiceSet, and on each of which the field-set of `metadata.namespace` succeeds,
`Run` appends exactly one entry per resource, in order, each the Info entry naming that
resource; so k resources give exactly k appended entries. -/
theorem one_info_per_plain_resource (rl : ResourceList Value)
    (hs : configSubnetwork kube rl = "")
    (hn : configNamespace kube rl ≠ "")
    (hitems : ∀ item ∈ rl.Items,
      ¬ (Kube.IsGVK item "iam.cnrm.cloud.google.com" "v1beta1" "IAMPolicyMember" = true
          ∧ Kube.GetName item = "k8s-developer-access")
      ∧ Kube.IsGVK item "blueprints.cloud.google.com" "v1alpha1" "ProjectServiceSet" = false
      ∧ (Kube.SetNestedString item (configNamespace kube rl)
          ["metadata", "namespace"]).2 = none) :
    (Run kube rl).1.Results
        = rl.Results ++ rl.Items.map (fun item =>
            GeneralResult ("Updated " ++ Kube.GetName item ++ " namespace") Severity.Info)
    ∧ (Run kube rl).1.Results.length = rl.Results.length + rl.Items.length := by
  have hn2 : (configNamespace kube rl).length > 0 := (length_pos_iff _).2 hn
  have key : ∀ items : List Value, (∀ item ∈ items,
      ¬ (Kube.IsGVK item "iam.cnrm.cloud.google.com" "v1beta1" "IAMPolicyMember" = true
          ∧ Kube.GetName item = "k8s-developer-access")
      ∧ Kube.IsGVK item "blueprints.cloud.google.com" "v1alpha1" "ProjectServiceSet" = false
      ∧ (Kube.SetNestedString item (configNamespace kube rl)
          ["metadata", "namespace"]).2 = none) →
      items.flatMap (itemEntries kube "" (configNamespace kube rl))
        = items.map (fun item =>
            GeneralResult ("Updated " ++ Kube.GetName item ++ " namespace") Severity.Info) := by
    intro items
    induction items with
    | nil => intro _; rfl
    | cons item rest ih =>
      intro h
      obtain ⟨a, b, c⟩ := h item (List.mem_cons_self _ _)
      rw [List.flatMap_cons, List.map_cons, itemEntries_plain _ item hn2 a b c,
        ih (fun x hx => h x (List.mem_cons_of_mem _ hx))]
      rfl
  have hR : (Run kube rl).1.Results
        = rl.Results ++ rl.Items.map (fun item =>
            GeneralResult ("Updated " ++ Kube.GetName item ++ " namespace") Severity.Info) := by
    rw [Run_Results, hs, key rl.Items hitems]
  refine ⟨hR, ?_⟩
  rw [hR, List.length_append, List.length_map]

/-! ## A second pass -/

theorem namespaceBlock_kube_obj_cases (n : String) (st : List Result × Value) :
    (namespaceBlock kube n st).2 = st.2
    ∨ (n.length > 0 ∧ (namespaceBlock kube n st).2
        = (Kube.SetNestedField st.2 (Value.str n) ["metadata", "namespace"]).1) := by
  by_cases hn : n.length > 0
  · right
    exact ⟨hn, namespaceBlock_kube_obj n st.1 st.2 hn⟩
  · left
    simp only [namespaceBlock, hn, if_false]

theorem authNetworkStep_again (s : String) (r : List Result) (t f : Value)
    (hg : Kube.IsGVK f "container.cnrm.cloud.google.com" "v1beta1" "ContainerCluster"
      = Kube.IsGVK t "container.cnrm.cloud.google.com" "v1beta1" "ContainerCluster")
    (hfix : s.length > 0 →
      Kube.IsGVK t "container.cnrm.cloud.google.com" "v1beta1" "ContainerCluster" = true →
      Kube.SetNestedField f
          (Value.seq [Value.map [("cidrBlock", Value.str s),
                                 ("displayName", Value.str "private-net")]])
          ["spec", "masterAuthorizedNetworksConfig", "cidrBlocks"]
        = (f, (Kube.SetNestedField t
          (Value.seq [Value.map [("cidrBlock", Value.str s),
                                 ("displayName", Value.str "private-net")]])
          ["spec", "masterAuthorizedNetworksConfig", "cidrBlocks"]).2)) :
    authNetworkStep kube s (r, f) = (r ++ (authNetworkStep kube s ([], t)).1, f) := by
  unfold authNetworkStep
  simp only [kube_IsGVK, kube_SetNestedField, hg]
  by_cases h : s.length > 0 ∧
      Kube.IsGVK t "container.cnrm.cloud.google.com" "v1beta1" "ContainerCluster" = true
  · rw [if_pos h, if_pos h, hfix h.1 h.2]
    generalize Kube.SetNestedField t
          (Value.seq [Value.map [("cidrBlock", Value.str s),
                                 ("displayName", Value.str "private-net")]])
          ["spec", "masterAuthorizedNetworksConfig", "cidrBlocks"] = x
    obtain ⟨t1, e⟩ := x
    cases e <;> simp
  · rw [if_neg h, if_neg h]
    simp

theorem iamMemberStep_again (n : String) (r : List Result) (t f : Value)
    (hg : Kube.IsGVK f "iam.cnrm.cloud.google.com" "v1beta1" "IAMPolicyMember"
      = Kube.IsGVK t "iam.cnrm.cloud.google.com" "v1beta1" "IAMPolicyMember")
    (hname : Kube.GetName f = Kube.GetName t)
    (hfix : n.length > 0 →
      Kube.IsGVK t "iam.cnrm.cloud.google.com" "v1beta1" "IAMPolicyMember" = true →
      Kube.GetName t = "k8s-developer-access" →
      (Kube.SetNestedField f (Value.str n)
          ["spec", "memberFrom", "serviceAccountRef", "namespace"]).1 = f) :
    iamMemberStep kube n (r, f) = (r ++ (iamMemberStep kube n ([], t)).1, f) := by
  unfold iamMemberStep
  simp only [kube_IsGVK, kube_GetName, kube_SetNestedString, Kube.SetNestedString, hg, hname]
  by_cases h : n.length > 0 ∧
      Kube.IsGVK t "iam.cnrm.cloud.google.com" "v1beta1" "IAMPolicyMember" = true
  · rw [if_pos h, if_pos h]
    by_cases h2 : Kube.GetName t = "k8s-developer-access"
    · rw [if_pos h2, if_pos h2, hfix h.1 h.2 h2]
      simp
    · rw [if_neg h2, if_neg h2]
      simp
  · rw [if_neg h, if_neg h]
    simp

theorem namespaceBlock_again (n : String) (r : List Result) (t f : Value)
    (hf : n.length > 0 → f = (Kube.SetNestedField t (Value.str n) ["metadata", "namespace"]).1) :
    namespaceBlock kube n (r, f) = (r ++ (namespaceBlock kube n ([], t)).1, f) := by
  by_cases hn : n.length > 0
  · have hi := Kube.SetNestedField_idem t (Value.str n) ["metadata", "namespace"]
    rw [← hf hn] at hi
    have h1 : ∀ r2 : List Result, namespaceStep kube n (r2, f)
        = (r2 ++ (namespaceStep kube n ([], t)).1, f) := by
      intro r2
      unfold namespaceStep
      simp only [kube_SetNestedString, kube_GetName, Kube.SetNestedString, hi]
      generalize hx : Kube.SetNestedField t (Value.str n) ["metadata", "namespace"] = x
      have hf2 := hf hn
      rw [hx] at hf2
      obtain ⟨t1, e⟩ := x
      simp only at hf2
      subst hf2
      cases e <;> simp
    have h2 : (namespaceStep kube n ([], t)).2 = f := by
      rw [namespaceStep_kube_obj, hf hn]; rfl
    have h3 : ∀ r2 : List Result, (projectServicesStep kube n (r2, f)).2 = f := by
      intro r2
      have := projectServicesStep_kube_obj n r2 t
      rw [Kube.SetNestedString, ← hf hn] at this
      exact this
    have h4 : namespaceStep kube n ([], t) = ((namespaceStep kube n ([], t)).1, f) := by
      rw [← h2]
    simp only [namespaceBlock, hn, if_true]
    rw [h1 r, h4]
    rw [projectServicesStep_appends kube n (r ++ (namespaceStep kube n ([], t)).1) f,
      projectServicesStep_appends kube n (namespaceStep kube n ([], t)).1 f, h3]
    simp [List.append_assoc]
  · simp only [namespaceBlock, hn, if_false, List.append_nil]

theorem SameHeader.trans {t u w : Value} (h1 : SameHeader t u) (h2 : SameHeader u w) :
    SameHeader t w :=
  ⟨fun g v k => (h2.1 g v k).trans (h1.1 g v k), h2.2.trans h1.2⟩

theorem authNetworkStep_header (s : String) (st : List Result × Value) :
    SameHeader st.2 (authNetworkStep kube s st).2 := by
  rcases authNetworkStep_kube_obj s st with h | h
  · rw [h]; exact ⟨fun _ _ _ => rfl, rfl⟩
  · rw [h]
    exact ⟨fun g v k => Kube.IsGVK_set _ _ _ _ _ _ _ (by decide) (by decide),
      Kube.GetName_set_spec _ _ _⟩

theorem iamMemberStep_header (n : String) (st : List Result × Value) :
    SameHeader st.2 (iamMemberStep kube n st).2 := by
  rcases iamMemberStep_kube_obj n st with h | h
  · rw [h]; exact ⟨fun _ _ _ => rfl, rfl⟩
  · rw [h]
    exact ⟨fun g v k => Kube.IsGVK_set _ _ _ _ _ _ _ (by decide) (by decide),
      Kube.GetName_set_spec _ _ _⟩

theorem namespaceBlock_header (n : String) (st : List Result × Value) :
    SameHeader st.2 (namespaceBlock kube n st).2 := by
  rcases namespaceBlock_kube_obj_cases n st with h | ⟨_, h⟩
  · rw [h]; exact ⟨fun _ _ _ => rfl, rfl⟩
  · rw [h]
    exact ⟨fun g v k => Kube.IsGVK_set _ _ _ _ _ _ _ (by decide) (by decide),
      Kube.GetName_set_namespace _ _⟩

theorem fixed_through_block (n : String) (st : List Result × Value) (val : Value)
    (rest : List String) (e : Option String)
    (h : Kube.SetNestedField st.2 val ("spec" :: rest) = (st.2, e)) :
    Kube.SetNestedField (namespaceBlock kube n st).2 val ("spec" :: rest)
      = ((namespaceBlock kube n st).2, e) := by
  rcases namespaceBlock_kube_obj_cases n st with h1 | ⟨_, h1⟩
  · rw [h1]; exact h
  · rw [h1]
    exact Kube.SetNestedField_fixed_other _ _ _ _ _ _ _ _ (by decide) h

theorem authNetworkStep_kube_obj_pos (s : String) (st : List Result × Value)
    (hs : s.length > 0)
    (hg : Kube.IsGVK st.2 "container.cnrm.cloud.google.com" "v1beta1" "ContainerCluster"
      = true) :
    (authNetworkStep kube s st).2
      = (Kube.SetNestedField st.2
            (Value.seq [Value.map [("cidrBlock", Value.str s),
                                   ("displayName", Value.str "private-net")]])
            ["spec", "masterAuthorizedNetworksConfig", "cidrBlocks"]).1 := by
  unfold authNetworkStep
  simp only [kube_IsGVK, kube_SetNestedField, hs, hg, and_self, if_true]
  split <;> simp_all

theorem iamMemberStep_kube_obj_pos (n : String) (st : List Result × Value)
    (hn : n.length > 0)
    (hg : Kube.IsGVK st.2 "iam.cnrm.cloud.google.com" "v1beta1" "IAMPolicyMember" = true)
    (hname : Kube.GetName st.2 = "k8s-developer-access") :
    (iamMemberStep kube n st).2
      = (Kube.SetNestedField st.2 (Value.str n)
          ["spec", "memberFrom", "serviceAccountRef", "namespace"]).1 := by
  unfold iamMemberStep
  simp only [kube_IsGVK, kube_GetName, kube_SetNestedString, Kube.SetNestedString, hn, hg,
    hname, and_self, if_true]

/-- A second iteration on the state an item was left in appends the same entries and
leaves the state as it is. -/
theorem runItem_again (s n : String) (r : List Result) (item : Value) :
    runItem kube s n (r, itemOut kube s n item)
      = (r ++ itemEntries kube s n item, itemOut kube s n item) := by
  -- the first pass, step by step
  have a1 := authNetworkStep_appends kube s
  have a2 := iamMemberStep_appends kube n
  have a3 := namespaceBlock_appends kube n
  have hd1 := authNetworkStep_header s ([], item)
  have hd2 := iamMemberStep_header n (authNetworkStep kube s ([], item))
  have hd3 := namespaceBlock_header n
    (iamMemberStep kube n (authNetworkStep kube s ([], item)))
  have hout : itemOut kube s n item
      = (namespaceBlock kube n
          (iamMemberStep kube n (authNetworkStep kube s ([], item)))).2 := rfl
  have hent : itemEntries kube s n item
      = (authNetworkStep kube s ([], item)).1
        ++ (iamMemberStep kube n ([], (authNetworkStep kube s ([], item)).2)).1
        ++ (namespaceBlock kube n
            ([], (iamMemberStep kube n (authNetworkStep kube s ([], item))).2)).1 := by
    have e1 : authNetworkStep kube s ([], item)
        = ((authNetworkStep kube s ([], item)).1, (authNetworkStep kube s ([], item)).2) := rfl
    have e2 : iamMemberStep kube n (authNetworkStep kube s ([], item))
        = ((iamMemberStep kube n (authNetworkStep kube s ([], item))).1,
            (iamMemberStep kube n (authNetworkStep kube s ([], item))).2) := rfl
    simp only [itemEntries, runItem]
    rw [e2, a3, e1, a2]
  -- second pass, step 1
  have p1 : authNetworkStep kube s (r, itemOut kube s n item)
      = (r ++ (authNetworkStep kube s ([], item)).1, itemOut kube s n item) := by
    apply authNetworkStep_again
    · exact ((hd1.trans hd2).trans hd3).1 _ _ _
    · intro hs hg
      have ht1 := authNetworkStep_kube_obj_pos s ([], item) hs hg
      have hfix := Kube.SetNestedField_idem item
        (Value.seq [Value.map [("cidrBlock", Value.str s),
                               ("displayName", Value.str "private-net")]])
        ["spec", "masterAuthorizedNetworksConfig", "cidrBlocks"]
      rw [← ht1] at hfix
      have hskip : iamMemberStep kube n (authNetworkStep kube s ([], item))
          = authNetworkStep kube s ([], item) := by
        apply iamMemberStep_skip
        rintro ⟨_, h3, _⟩
        rw [kube_IsGVK, hd1.1, Kube.IsGVK_exclusive item _ _ _ _ _ _ (by decide) hg] at h3
        exact Bool.noConfusion h3
      rw [hout, hskip]
      exact fixed_through_block n _ _ _ _ hfix
  -- second pass, step 2
  have p2 : ∀ r2 : List Result, iamMemberStep kube n (r2, itemOut kube s n item)
      = (r2 ++ (iamMemberStep kube n ([], (authNetworkStep kube s ([], item)).2)).1,
          itemOut kube s n item) := by
    intro r2
    have hdi := iamMemberStep_header n ([], (authNetworkStep kube s ([], item)).2)
    have e2 : (iamMemberStep kube n (authNetworkStep kube s ([], item))).2
        = (iamMemberStep kube n ([], (authNetworkStep kube s ([], item)).2)).2 := by
      have e1 : authNetworkStep kube s ([], item)
        = ((authNetworkStep kube s ([], item)).1, (authNetworkStep kube s ([], item)).2) := rfl
      rw [e1, a2]
    apply iamMemberStep_again
    · exact (hd2.trans hd3).1 _ _ _
    · exact (hd2.trans hd3).2
    · intro hn hg hname
      have ht2 := iamMemberStep_kube_obj_pos n ([], (authNetworkStep kube s ([], item)).2)
        hn hg hname
      have hfix := Kube.SetNestedField_idem (authNetworkStep kube s ([], item)).2
        (Value.str n) ["spec", "memberFrom", "serviceAccountRef", "namespace"]
      simp only at ht2
      rw [← ht2, ← e2] at hfix
      have := fixed_through_block n
        (iamMemberStep kube n (authNetworkStep kube s ([], item))) _ _ _ hfix
      rw [hout, this]
  -- second pass, steps 3 and 4
  have p3 : ∀ r2 : List Result, namespaceBlock kube n (r2, itemOut kube s n item)
      = (r2 ++ (namespaceBlock kube n
            ([], (iamMemberStep kube n (authNetworkStep kube s ([], item))).2)).1,
          itemOut kube s n item) := by
    intro r2
    apply namespaceBlock_again
    intro hn
    rw [hout]
    exact namespaceBlock_kube_obj n _ _ hn
  simp only [runItem]
  rw [p1, p2, p3, hent]
  simp [List.append_assoc]

theorem runItems_again (s n : String) (r : List Result) (items : List Value) :
    runItems kube s n r (items.map (itemOut kube s n))
      = (r ++ items.flatMap (itemEntries kube s n), items.map (itemOut kube s n)) := by
  induction items generalizing r with
  | nil => simp [runItems]
  | cons item rest ih =>
    simp only [List.map_cons, runItems, runItem_again, ih, List.flatMap_cons,
      List.append_assoc]

/-- C10 (idempotence on resources): for every configuration, resource list and
results list, a second `Run` on the output of the first leaves every resource as the
first pass left it and appends the same sequence of entries as the first pass appended.
On field trees a failed field-set leaves the object as it was, so this holds with or
without failing field-sets. -/
theorem Run_idempotent (rl : ResourceList Value) :
    (Run kube (Run kube rl).1).1.Items = (Run kube rl).1.Items
    ∧ ∃ appended : List Result,
        (Run kube rl).1.Results = rl.Results ++ appended
        ∧ (Run kube (Run kube rl).1).1.Results = (Run kube rl).1.Results ++ appended := by
  have h := runItems_again (configSubnetwork kube rl) (configNamespace kube rl)
  have h1 := runItems_eq kube (configSubnetwork kube rl) (configNamespace kube rl)
  have e : (Run kube rl).1
      = { FunctionConfig := rl.FunctionConfig,
          Items := rl.Items.map
            (itemOut kube (configSubnetwork kube rl) (configNamespace kube rl)),
          Results := rl.Results ++ rl.Items.flatMap
            (itemEntries kube (configSubnetwork kube rl) (configNamespace kube rl)) } := by
    simp only [configSubnetwork, configNamespace] at h1
    simp only [Run, h1, configSubnetwork, configNamespace]
  have e2 : Run kube
      { FunctionConfig := rl.FunctionConfig,
        Items := rl.Items.map
          (itemOut kube (configSubnetwork kube rl) (configNamespace kube rl)),
        Results := rl.Results ++ rl.Items.flatMap
          (itemEntries kube (configSubnetwork kube rl) (configNamespace kube rl)) }
      = ({ FunctionConfig := rl.FunctionConfig,
           Items := rl.Items.map
             (itemOut kube (configSubnetwork kube rl) (configNamespace kube rl)),
           Results := (rl.Results ++ rl.Items.flatMap
             (itemEntries kube (configSubnetwork kube rl) (configNamespace kube rl)))
             ++ rl.Items.flatMap
             (itemEntries kube (configSubnetwork kube rl) (configNamespace kube rl)) },
          true, none) := by
    simp only [configSubnetwork, configNamespace] at h
    simp only [Run, h, configSubnetwork, configNamespace]
  rw [e, e2]
  exact ⟨rfl, _, rfl, rfl⟩

section Claims

variable {Obj Sub : Type}

theorem runItem_unconfigured (sdk : Sdk Obj Sub) (st : List Result × Obj) :
    runItem sdk "" "" st = st := by
  simp [runItem, namespaceBlock, iamMemberStep, authNetworkStep]

/-- C1 (no-op when unconfigured): for every SDK, every resource list and every
pre-existing results list, when the `subnetwork-range` and `namespace` values read from
the function configuration are both empty, `Run` returns the resource list it was given:
every resource is as it was and the results list is the one from before. -/
theorem Run_unconfigured (sdk : Sdk Obj Sub) (rl : ResourceList Obj)
    (hs : configSubnetwork sdk rl = "") (hn : configNamespace sdk rl = "") :
    (Run sdk rl).1 = rl := by
  have hI := Run_Items sdk rl
  have hR := Run_Results sdk rl
  rw [hs, hn] at hI hR
  have e1 : itemOut sdk "" "" = id := by
    funext item; simp [itemOut, runItem_unconfigured]
  have e2 : itemEntries sdk "" "" = fun _ => [] := by
    funext item; simp [itemEntries, runItem_unconfigured]
  rw [e1] at hI
  rw [e2] at hR
  simp at hI hR
  cases rl with
  | mk cfg items results =>
    simp only [Run] at hI hR ⊢
    simp [hI, hR]

/-- C8 (resources are handled independently, in input order): for every SDK,
configuration, initial results `r` and resource lists `xs` and `ys`, the resources after
`Run` on `xs ++ ys` are those after `Run` on `xs` followed by those after `Run` on `ys`,
as many as were given; the results are `r`, then the entries appended for `xs`, then
those appended for `ys`; and the entries appended and the final resources do not depend
on the results list the pass started from. -/
theorem Run_append (sdk : Sdk Obj Sub) (cfg : Obj) (r : List Result) (xs ys : List Obj) :
    (Run sdk ⟨cfg, xs ++ ys, r⟩).1.Items
        = (Run sdk ⟨cfg, xs, []⟩).1.Items ++ (Run sdk ⟨cfg, ys, []⟩).1.Items
    ∧ (Run sdk ⟨cfg, xs ++ ys, r⟩).1.Results
        = r ++ (Run sdk ⟨cfg, xs, []⟩).1.Results ++ (Run sdk ⟨cfg, ys, []⟩).1.Results
    ∧ (Run sdk ⟨cfg, xs ++ ys, r⟩).1.Items.length = (xs ++ ys).length
    ∧ (Run sdk ⟨cfg, xs, r⟩).1.Results = r ++ (Run sdk ⟨cfg, xs, []⟩).1.Results
    ∧ (Run sdk ⟨cfg, xs, r⟩).1.Items = (Run sdk ⟨cfg, xs, []⟩).1.Items := by
  simp only [Run_Items, Run_Results, configSubnetwork, configNamespace]
  simp [List.flatMap_append]

end Claims

theorem Run_unconfigured_witness :
    configSubnetwork kube ⟨exConfigEmpty, [exCluster, exIam, exServices],
        [GeneralResult "earlier" Severity.Warning]⟩ = ""
    ∧ configNamespace kube ⟨exConfigEmpty, [exCluster, exIam, exServices],
        [GeneralResult "earlier" Severity.Warning]⟩ = ""
    ∧ (Run kube ⟨exConfigEmpty, [exCluster, exIam, exServices],
        [GeneralResult "earlier" Severity.Warning]⟩).1
      = ⟨exConfigEmpty, [exCluster, exIam, exServices],
        [GeneralResult "earlier" Severity.Warning]⟩ :=
  ⟨by decide, by decide, Run_unconfigured kube _ (by decide) (by decide)⟩

theorem cluster_patch_exact_witness :
    ∃ out, (Run kube ⟨exConfig, [exIamOther, exCluster], []⟩).1.Items[1]? = some out
      ∧ getNested ["spec", "masterAuthorizedNetworksConfig", "cidrBlocks"] out
          = some (Value.seq [Value.map [("cidrBlock", Value.str "10.0.0.0/24"),
                                        ("displayName", Value.str "private-net")]])
      ∧ ∀ r : List Result,
          (authNetworkStep kube "10.0.0.0/24" (r, exCluster)).1
            = r ++ [GeneralResult
                "Added auth-network block for private GKE cluster to match subnetwork-range"
                Severity.Info] :=
  cluster_patch_exact ⟨exConfig, [exIamOther, exCluster], []⟩ 1 exCluster
    (by decide) rfl (by decide) (by decide)

theorem namespace_stamped_witness :
    ∃ out, (Run kube ⟨exConfig, [exBucket, exServices], []⟩).1.Items[0]? = some out
      ∧ getNested ["metadata", "namespace"] out = some (Value.str "team-a")
      ∧ Kube.GetString (Kube.GetMap out "metadata") "namespace" = "team-a" :=
  namespace_stamped ⟨exConfig, [exBucket, exServices], []⟩ 0 exBucket
    (by decide) rfl (by decide)

theorem one_info_per_plain_resource_witness :
    (Run kube ⟨exConfigNs, [exBucket, exIamOther, exCluster], []⟩).1.Results
        = [] ++ [exBucket, exIamOther, exCluster].map (fun item =>
            GeneralResult ("Updated " ++ Kube.GetName item ++ " namespace") Severity.Info)
    ∧ (Run kube ⟨exConfigNs, [exBucket, exIamOther, exCluster], []⟩).1.Results.length
        = 0 + 3 :=
  one_info_per_plain_resource ⟨exConfigNs, [exBucket, exIamOther, exCluster], []⟩
    (by decide) (by decide) (by decide)

theorem project_service_set_double_set_witness :
    runItem kube "10.0.0.0/24" "team-a" ([], exServices)
        = ([] ++ [GeneralResult ("Updated " ++ Kube.GetName exServices ++ " namespace")
                  Severity.Info,
                 GeneralResult "Updated project-services namespace" Severity.Info],
            (Kube.SetNestedString exServices "team-a" ["metadata", "namespace"]).1) :=
  (project_service_set_double_set "10.0.0.0/24" "team-a" [] exServices
    (by decide) (by decide) (by decide)).2.2.2.2

end ClimateInsights
